import Mathlib

/-
  Verification of the lead-management dashboard (harunali86/leads-).

  The repository contains two iterations of the dashboard:
  * src/app/components/DashboardClient.tsx — the final version (v2.1);
    its classifier `getAnalysis` (lines 269-345), the sort comparator
    (lines 347-368), `parseNotes` (126-128), `togglePin` (212-232),
    the lead dedup (146-152) and `formatPhoneForWhatsApp` (47-75).
  * src/app/page.tsx — an earlier version (v2.0); its classifier
    `getAnalysis` (lines 428-531 of the concatenated file) and the
    source resolver `getLeadSource` (lines 352-367).

  JS values carried inside the free-form `notes` JSON blob are modelled
  by the `JVal` type; JS truthiness by `truthy`.  JSON.parse and
  JSON.stringify are JS runtime builtins external to the repository:
  they are modelled by their contract (a notes string either fails to
  parse, or is the serialization of a JSON object and parses back to
  exactly that object), see `NotesStr`.
-/

/-- A JSON value, as produced by JSON.parse of the notes blob. -/
inductive JVal where
  | jnull : JVal
  | jbool (b : Bool) : JVal
  | jnum (q : ℚ) : JVal
  | jstr (s : String) : JVal
  | jarr (xs : List JVal) : JVal
  | jobj (fields : List (String × JVal)) : JVal

/-- A parsed JSON object: ordered association list of fields, as JS keeps
insertion order of object keys. -/
abbrev JObj := List (String × JVal)

/-- JS truthiness of a JSON value (false, null, 0 and "" are falsy). -/
def truthy : JVal → Bool
  | .jnull => false
  | .jbool b => b
  | .jnum q => decide (q ≠ 0)
  | .jstr s => s != ""
  | .jarr _ => true
  | .jobj _ => true

/-- Field access on a parsed JSON object (first matching key, as in JS
objects keys are unique after JSON.parse). -/
def jLookup (o : JObj) (k : String) : Option JVal :=
  List.lookup k o

/-- JS truthiness of `o.k` (an absent field is undefined, hence falsy). -/
def jTruthy (o : JObj) (k : String) : Bool :=
  match jLookup o k with
  | some v => truthy v
  | none => false

/-- JS strict equality `o.k === s` against a string literal. -/
def jIsStr (o : JObj) (k s : String) : Bool :=
  match jLookup o k with
  | some (.jstr t) => t == s
  | _ => false

/-- JS string conversion used when a JSON value appears in a template
string.  Number rendering approximates the JS float format. -/
def jsToString : JVal → String
  | .jnull => "null"
  | .jbool b => cond b "true" "false"
  | .jnum q => toString q
  | .jstr s => s
  | .jarr _ => ""
  | .jobj _ => "[object Object]"

/-- The JS idiom `(o.k || d)` in string position: the field when truthy,
else the fallback. -/
def jsStrOrD (o : JObj) (k : String) (d : String) : String :=
  match jLookup o k with
  | some v => if truthy v then jsToString v else d
  | none => d

/-- The JS idiom `(o.k || d)` where the fallback is itself optional
(e.g. `audit.founder_email || lead.email`). -/
def jsStrOpt (o : JObj) (k : String) (d : Option String) : Option String :=
  match jLookup o k with
  | some v => if truthy v then some (jsToString v) else d
  | none => d

/-- A JS field read `o.k` assigned as-is into a `string | null` slot
(null and undefined collapse to `none`). -/
def jsField (o : JObj) (k : String) : Option String :=
  match jLookup o k with
  | some .jnull => none
  | some v => some (jsToString v)
  | none => none

/-- JSON.parse / JSON.stringify are JS builtins, external to the
repository.  Contract model: a raw notes string is either malformed
(JSON.parse throws) or the serialization of a JSON object (JSON.parse
returns exactly that object).  Notes whose JSON is a non-object value
are outside the modelled domain; the repository only ever writes
objects into notes. -/
inductive NotesStr where
  | malformed (raw : String) : NotesStr
  | serialized (o : JObj) : NotesStr

/-- JSON.parse under the contract model: fails exactly on malformed input. -/
def jsonParse : NotesStr → Option JObj
  | .malformed _ => none
  | .serialized o => some o

/-- JS truthiness of an optional string column (null/undefined/"" falsy). -/
def strTruthy : Option String → Bool
  | some s => s != ""
  | none => false

/-- The JS idiom `(x || d)` on an optional string column. -/
def optStrOrD (o : Option String) (d : String) : String :=
  match o with
  | some s => if s != "" then s else d
  | none => d

/-- The Lead record (interface Lead, DashboardClient.tsx:13-35).
Numeric columns that the code guards with `|| 0` are optional;
`rating` is a decimal number, modelled as a rational. -/
structure Lead where
  id : String
  business_name : String
  status : String
  quality_score : Option ℚ
  phone : Option String
  phone_type : Option String
  email : Option String
  instagram : Option String
  facebook : Option String
  address : Option String
  website : Option String
  rating : Option ℚ
  review_count : Option Nat
  google_maps_url : String
  created_at : String
  contacted : Bool
  is_premium : Option Bool
  source : Option String
  contact_name : Option String
  notes : Option NotesStr
  campaign_id : Option String

/-- parseNotes (DashboardClient.tsx:126-128):
`try { return lead.notes ? JSON.parse(lead.notes) : {}; } catch (e) { return {}; }` -/
def parseNotes (l : Lead) : JObj :=
  match l.notes with
  | some ns => (jsonParse ns).getD []
  | none => []

/-- `(lead.rating || 0)` — absent (and 0) collapse to 0. -/
def ratingOr0 (l : Lead) : ℚ := l.rating.getD 0

/-- `(lead.review_count || 0)`. -/
def reviewsOr0 (l : Lead) : Nat := l.review_count.getD 0

/- ### Phone normalizer (DashboardClient.tsx:47-75) -/

/-- `phone.replace(/[^\d+]/g, '')` — keep digits and every plus sign. -/
def cleanPhoneL (cs : List Char) : List Char :=
  cs.filter (fun c => c.isDigit || c == '+')

/-- List-level startsWith. -/
def startsWithL (cs : List Char) (p : List Char) : Bool :=
  p.isPrefixOf cs

/-- `/^[6-9]/.test(clean)` — first character between 6 and 9. -/
def headSixToNine : Option Char → Bool
  | some c => decide ('6' ≤ c) && decide (c ≤ '9')
  | none => false

/-- formatPhoneForWhatsApp (DashboardClient.tsx:47-75): smart country
code.  Model over the character list of the input string. -/
def formatPhoneForWhatsApp (s : String) : String :=
  let clean := cleanPhoneL s.data
  if startsWithL clean ['+'] then String.mk clean.tail
  else if startsWithL clean ['0', '5'] then String.mk ('9' :: '7' :: '1' :: clean.tail)
  else if startsWithL clean ['0', '4'] then String.mk ('9' :: '7' :: '1' :: clean.tail)
  else if clean.length == 10 && headSixToNine clean.head? then String.mk ('9' :: '1' :: clean)
  else if clean.length == 9 && (clean.head? == some '5') then String.mk ('9' :: '7' :: '1' :: clean)
  else String.mk clean

/-- isWhatsAppCapable (DashboardClient.tsx:37-44). -/
def isWhatsAppCapable (l : Lead) : Bool :=
  match l.phone with
  | none => false
  | some p =>
    if (p.splitOn "SEARCH").length != 1 || (p.splitOn "REQUIRED").length != 1
        || (p.splitOn "N/A").length != 1 then false
    else decide ((p.data.filter Char.isDigit).length ≥ 10)

/- ### The v2.1 classifier getAnalysis (DashboardClient.tsx:269-345) -/

/-- `t.includes(pat)` for a nonempty pattern. -/
def strIncludes (t pat : String) : Bool :=
  (t.splitOn pat).length != 1

/-- `lead.source?.includes(s)` (optional chaining: absent is falsy). -/
def sourceIncludes (l : Lead) (s : String) : Bool :=
  match l.source with
  | some t => strIncludes t s
  | none => false

/-- The presentation bundle produced by the v2.1 classifier
(`result` object, DashboardClient.tsx:273-286). -/
structure Analysis where
  tag : String
  color : String
  pitch : String
  email : Option String
  sourceUrl : String
  websiteUrl : Option String
  platform : String
  audit : JObj
  budget : Option String
  isPinned : Bool

/-- Rule 1 guard: `lead.source === 'AD_BURNER_HUNT'`. -/
def dcRule1 (l : Lead) : Bool :=
  l.source == some "AD_BURNER_HUNT"

/-- Rule 2 guard: the three hiring-intent campaign identifiers. -/
def dcRule2 (l : Lead) : Bool :=
  l.source == some "INDEED_GULF_HUNT" || l.source == some "LINKEDIN_AUTH_SNIPE"
    || l.source == some "CENTURION_GULF_HUNT"

/-- Rule 3 guard: `lead.source === 'HIGH_INTENT_PROJECT' || (audit && audit.intent === 'DIRECT_DEVELOPER_NEED')`
(in v2.1 `audit` is always an object, hence truthy). -/
def dcRule3 (l : Lead) (audit : JObj) : Bool :=
  l.source == some "HIGH_INTENT_PROJECT" || jIsStr audit "intent" "DIRECT_DEVELOPER_NEED"

/-- Rule 4 guard: `lead.source === 'MISSION_CONTROL' || (audit && (audit.founder_linkedin || audit.founder_email))`. -/
def dcRule4 (l : Lead) (audit : JObj) : Bool :=
  l.source == some "MISSION_CONTROL" || jTruthy audit "founder_linkedin"
    || jTruthy audit "founder_email"

/-- Rule 5 guard: `lead.is_premium` (truthy). -/
def dcRule5 (l : Lead) : Bool :=
  l.is_premium.getD false

/-- Rule 6 guard: `lead.source === 'MAPS_NO_WEBSITE' || !lead.website`. -/
def dcRule6 (l : Lead) : Bool :=
  l.source == some "MAPS_NO_WEBSITE" || !strTruthy l.website

/-- `audit?.fail_reason?.includes('Social')` (DashboardClient.tsx:291). -/
def failReasonSocial (audit : JObj) : Bool :=
  match jLookup audit "fail_reason" with
  | some (.jstr s) => strIncludes s "Social"
  | _ => false

/-- `lead.id.split('').reduce((a, b) => a + b.charCodeAt(0), 0)` — the sum
of the UTF-16 code units of the id (charCodeAt works on code units). -/
def utf16Codes (c : Char) : List Nat :=
  if c.toNat < 65536 then [c.toNat]
  else [55296 + (c.toNat - 65536) / 1024, 56320 + (c.toNat - 65536) % 1024]

/-- Sum of the UTF-16 code units of a string. -/
def idCharSum (s : String) : Nat :=
  (s.data.map (fun c => (utf16Codes c).sum)).sum

/-- The three premium pitch template variants (DashboardClient.tsx:328-332). -/
def premiumVariations (name : String) : List String :=
  [ "Hi " ++ name ++ ", I saw your premium work on Instagram. I specialize in building high-performing websites for luxury brands in Dubai. Can I show you a 30-sec concept for your new site?"
  , "Hi " ++ name ++ ", love the luxury projects you\x27re posting. I noticed your current web presence doesn\x27t fully capture your brand\x27s elite status. Open to seeing a quick upgrade idea?"
  , "Hi " ++ name ++ ", I build high-converting landing pages for high-ticket industries like yours. I\x27ve got a specific idea to help you get more bookings from your social traffic. Interested?" ]

/-- The v2.1 classifier with its parsed audit made explicit (the body of
getAnalysis, DashboardClient.tsx:269-345, after `let audit = parseNotes(lead)`). -/
def getAnalysisWith (l : Lead) (audit : JObj) : Analysis :=
  let isPinned := jTruthy audit "is_pinned"
  let base : Analysis :=
    { tag := "Optimization"
      color := "bg-slate-700 text-slate-300"
      pitch := "Hi " ++ l.business_name ++ ", I help businesses optimize their digital presence. Open to a chat?"
      email := l.email
      sourceUrl := l.google_maps_url
      websiteUrl := l.website
      platform :=
        if sourceIncludes l "FACEBOOK" then "Facebook"
        else if sourceIncludes l "YELP" then "Yelp"
        else if sourceIncludes l "INSTAGRAM" then "Instagram"
        else "Google Maps"
      audit := audit
      budget := none
      isPinned := isPinned }
  if dcRule1 l then
    { base with
      tag := "ðŸ”¥ CASH BLEED: Social Ads"
      color := "bg-gradient-to-r from-red-600 to-rose-700 text-white shadow-lg shadow-red-600/30 font-black animate-pulse"
      pitch := "Hi " ++ l.business_name ++ ", I searched for \x27" ++ jsStrOrD audit "keyword" "your services" ++ "\x27 and saw your Google Ad. You are paying for clicks but sending them to " ++ (if failReasonSocial audit then "a Social Media page" else "a broken/generic link") ++ " instead of a landing page. You are losing 70% of your ad spend. I can build a dedicated landing page to fix this leak. Open to a chat?"
      platform := "Google Ads"
      sourceUrl := jsStrOrD audit "target_url" l.google_maps_url }
  else if dcRule2 l then
    let role := jsStrOrD audit "role" (jsStrOrD audit "job_title" "High-Ticket Prospect")
    let isGold := jTruthy audit "is_gold_mine"
    { base with
      tag := if isGold then "GOLD MINE: High Conversion" else "Money Hunt: Hirer"
      color :=
        if isGold then "bg-gradient-to-r from-yellow-500 to-amber-600 text-white shadow-lg shadow-yellow-500/30 font-black animate-pulse"
        else "bg-gradient-to-r from-emerald-500 to-teal-600 text-white shadow-lg shadow-emerald-500/20"
      pitch :=
        if strIncludes role.toLower "property" || strIncludes role.toLower "estate"
            || strIncludes role.toLower "real" then
          "Hi " ++ l.business_name ++ ", I saw your property ads. You are spending significantly on Marketing, but your Website isn\x27t optimized for luxury conversions. You are losing high-net-worth clients. Let us fix your Web infrastructure so your Ad spend converts 2x better. Open to a chat?"
        else if strIncludes role.toLower "web" || strIncludes role.toLower "software"
            || strIncludes role.toLower "it" then
          "Hi " ++ l.business_name ++ ", I saw you are looking for a " ++ role ++ ". Instead of hiring one person and paying monthly salary + visa, we can build your complete High-Performance Website for a fixed cost. You get a premium result without recruitment headache. Open to a chat?"
        else
          "Hi " ++ l.business_name ++ ", I saw you are hiring for " ++ role ++ ". Most high-ticket campaigns fail because the website isn\x27t optimized for conversions. Before you spend on more staff, let us fix your Website so your traffic actually turns into revenue. Open to a chat?"
      platform := jsStrOrD audit "platform" "Indeed" }
  else if dcRule3 l audit then
    { base with
      tag := "Project: Hot"
      color := "bg-gradient-to-r from-orange-500 to-red-600 text-white shadow-lg shadow-orange-500/20"
      pitch := jsStrOrD audit "ai_proposal" ("Hi, I saw your project for " ++ l.business_name ++ ". I\x27ve handled similar tech stacks before. Can we discuss the specs?")
      platform := "Freelancer"
      sourceUrl := jsStrOrD audit "project_url" l.google_maps_url
      budget := jsField audit "budget" }
  else if dcRule4 l audit then
    { base with
      tag := "Bypass Mission"
      color := "bg-gradient-to-r from-red-500 to-rose-600 text-white shadow-lg shadow-rose-500/20"
      pitch := jsStrOrD audit "connection_pitch" ("Hi " ++ jsStrOrD audit "founder_name" "Founder" ++ ", I noticed " ++ l.business_name ++ " is scaling. I help founders ship MVPs fast. Open to a quick chat?")
      platform := jsStrOrD audit "platform" "Direct"
      sourceUrl := jsStrOrD audit "job_url" (jsStrOrD audit "founder_linkedin" l.google_maps_url)
      email := jsStrOpt audit "founder_email" l.email }
  else if dcRule5 l then
    { base with
      tag := "Premium Target"
      color := "bg-gradient-to-r from-yellow-500 to-amber-600 text-white shadow-lg shadow-yellow-500/20"
      pitch := (premiumVariations l.business_name).getD
        (idCharSum l.id % (premiumVariations l.business_name).length) "" }
  else if dcRule6 l then
    { base with
      tag := "No Website Gold"
      color := "bg-emerald-500/20 text-emerald-400"
      pitch := "Hi " ++ l.business_name ++ ", I saw your excellent profile on Maps. I noticed you don\x27t have a professional website to capture leads yet. I can build you a high-performance site in 48 hours. Open to a quick chat?" }
  else
    { base with
      tag := "Growth Target"
      color := "bg-slate-700/50 text-slate-400"
      pitch := "Hi " ++ l.business_name ++ ", I noticed your digital presence could be upgraded to better match your service quality. I build conversion-focused sites for local businesses. Can I send a sample?" }

/-- getAnalysis (DashboardClient.tsx:269-345): parse the notes, then classify. -/
def getAnalysis (l : Lead) : Analysis :=
  getAnalysisWith l (parseNotes l)

/- ### Sort comparator, dedup and togglePin (DashboardClient.tsx) -/

/-- The sort comparator of filteredLeads (DashboardClient.tsx:354-368):
pinned first, then the "Aukat Strike Target" tag, then review count
descending. -/
def leadCompare (a b : Lead) : Int :=
  let aA := getAnalysis a
  let bA := getAnalysis b
  if aA.isPinned && !bA.isPinned then -1
  else if !aA.isPinned && bA.isPinned then 1
  else if aA.tag == "Aukat Strike Target" && bA.tag != "Aukat Strike Target" then -1
  else if aA.tag != "Aukat Strike Target" && bA.tag == "Aukat Strike Target" then 1
  else (reviewsOr0 b : Int) - (reviewsOr0 a : Int)

/-- Modelled from the spec: the composite sort key chain
`(isPinned desc, isAukat desc, review_count desc)` of section 4.3. -/
def specKeyCompare : Bool × Bool × Nat → Bool × Bool × Nat → Int
  | (p₁, k₁, r₁), (p₂, k₂, r₂) =>
    if p₁ ≠ p₂ then (if p₁ then -1 else 1)
    else if k₁ ≠ k₂ then (if k₁ then -1 else 1)
    else (r₂ : Int) - (r₁ : Int)

/-- The composite key of a lead: derived pinned flag, whether its
classifier tag is "Aukat Strike Target", and its review count. -/
def leadKey (l : Lead) : Bool × Bool × Nat :=
  ((getAnalysis l).isPinned, (getAnalysis l).tag == "Aukat Strike Target", reviewsOr0 l)

/-- `lead.business_name.trim().toLowerCase()` (DashboardClient.tsx:149).
Whitespace trimming and lowercasing modelled character-wise. -/
def normalizeName (s : String) : String :=
  String.mk ((((s.data.dropWhile Char.isWhitespace).reverse.dropWhile
    Char.isWhitespace).reverse).map Char.toLower)

/-- The client-side dedup loop (DashboardClient.tsx:146-152): walk the
fetched rows in order, keeping the first row for each normalized name
(the Map insertion check). -/
def dedupGo (seen : List String) : List Lead → List Lead
  | [] => []
  | l :: rest =>
    if seen.contains (normalizeName l.business_name) then dedupGo seen rest
    else l :: dedupGo (normalizeName l.business_name :: seen) rest

/-- `Array.from(uniqueLeadsMap.values())` — the deduplicated listing. -/
def dedupLeads (ls : List Lead) : List Lead :=
  dedupGo [] ls

/-- JS object spread `{ ...o, k: v }`: replace the value of `k` in place
when present, else append the new field at the end. -/
def setKey (o : JObj) (k : String) (v : JVal) : JObj :=
  if o.any (fun p => p.1 == k) then
    o.map (fun p => if p.1 == k then (k, v) else p)
  else o ++ [(k, v)]

/-- togglePin (DashboardClient.tsx:212-232): parse the notes, flip the
truthiness of is_pinned, re-serialize.  (The optimistic cache update
and the DB write perform the same transformation.) -/
def togglePin (l : Lead) : Lead :=
  let currentNotes := parseNotes l
  let isPinned := jTruthy currentNotes "is_pinned"
  let newNotes := setKey currentNotes "is_pinned" (.jbool (!isPinned))
  { l with notes := some (.serialized newNotes) }

/- ### The v2.0 classifier and source resolver (src/app/page.tsx) -/

/-- The audit of the v2.0 code (page.tsx:438-439):
`let audit = null; try { if (lead.notes) audit = JSON.parse(lead.notes); } catch {}` —
unlike v2.1 this stays null on absent or malformed notes. -/
def pageAudit (l : Lead) : Option JObj :=
  match l.notes with
  | some ns => jsonParse ns
  | none => none

/-- `audit && audit.k === s` on the nullable v2.0 audit. -/
def auditIsStr (a : Option JObj) (k s : String) : Bool :=
  match a with
  | some o => jIsStr o k s
  | none => false

/-- `audit && audit.k` (truthiness) on the nullable v2.0 audit. -/
def auditTruthyAt (a : Option JObj) (k : String) : Bool :=
  match a with
  | some o => jTruthy o k
  | none => false

/-- `s.replace(pat, '')` — remove the first occurrence of `pat`. -/
def replaceFirst (s pat : String) : String :=
  match s.splitOn pat with
  | [] => s
  | [x] => x
  | x :: y :: rest => x ++ String.intercalate pat (y :: rest)

/-- The presentation bundle of the v2.0 classifier (page.tsx:428-437);
fields the individual return sites omit are absent. -/
structure PageAnalysis where
  tag : String
  color : String
  pitch : String
  email : Option String
  platform : Option String
  jobUrl : Option String
  budget : Option String
  audit : Option JObj

/-- v2.0 rule 1 guard (page.tsx:441): high-intent project. -/
def pageRule1 (l : Lead) (a : Option JObj) : Bool :=
  l.source == some "HIGH_INTENT_PROJECT" || auditIsStr a "source" "HIGH_INTENT_PROJECT"
    || auditIsStr a "intent" "DIRECT_DEVELOPER_NEED"

/-- v2.0 rule 2 guard (page.tsx:457): mission control / quality sniping /
direct founder contact in the notes. -/
def pageRule2 (l : Lead) (a : Option JObj) : Bool :=
  l.source == some "MISSION_CONTROL" || l.source == some "QUALITY_SNIPER"
    || l.source == some "QUALITY_BUREAU" || auditTruthyAt a "founder_linkedin"
    || auditTruthyAt a "founder_email"

/-- The v2.0 classifier getAnalysis (page.tsx:428-531).  Three of its
bodies read the audit without a null guard — `audit.ai_proposal`
(rule 1), `audit.founder_name` (rule 2) and `audit.funding_amount`
(the funded rule) — so when those rules fire through the source column
alone while the audit is null (absent or malformed notes), the JS code
throws a TypeError; those paths are `Except.error`. -/
def getAnalysisV20 (l : Lead) : Except Unit PageAnalysis :=
  let audit := pageAudit l
  if pageRule1 l audit then
    match audit with
    | none => .error ()
    | some o =>
      let projectTitle := jsStrOrD o "job_title" (replaceFirst l.business_name "[PROJECT] ")
      let budget := jsStrOrD o "budget" "Inquiry"
      .ok
      { tag := "Project: Hot"
        color := "bg-gradient-to-r from-orange-500 to-red-600 text-white shadow-lg shadow-orange-500/20"
        pitch := jsStrOrD o "ai_proposal" ("Custom pitch for " ++ projectTitle ++ " is being prepared...")
        email := l.email
        platform := some "Freelancer"
        jobUrl := some (jsStrOrD o "project_url" l.google_maps_url)
        budget := some budget
        audit := some o }
  else if pageRule2 l audit then
    match audit with
    | none => .error ()
    | some o =>
      let founderName := jsStrOrD o "founder_name" (optStrOrD l.contact_name "Founder")
      let jobTitle := jsStrOrD o "job_title" "Project"
      let platform := jsStrOrD o "platform" "Job Board"
      let email := jsStrOpt o "founder_email" l.email
      .ok
      { tag := "Bypass Mission"
        color := "bg-gradient-to-r from-red-500 to-rose-600 text-white shadow-lg shadow-rose-500/20"
        pitch := jsStrOrD o "connection_pitch" ("Hi " ++ founderName ++ ", I saw " ++ platform ++ " mentioned that you\x27re looking for a " ++ jobTitle ++ ". I\x27m a developer specializing in rapid high-performance builds. Skip the portal clutterâ€”let\x27s handle this direct. Open to a 2-min chat?")
        email := email
        platform := some platform
        jobUrl := some (jsStrOrD o "job_url" l.google_maps_url)
        budget := none
        audit := some o }
  else if l.is_premium.getD false then
    let hook := "I have a growth strategy specifically for your niche."
    .ok
    { tag := "Premium Target"
      color := "bg-gradient-to-r from-yellow-500 to-amber-600 text-white shadow-lg shadow-yellow-500/20"
      pitch := "Hi " ++ optStrOrD l.contact_name l.business_name ++ ", I saw your profile on LinkedIn. " ++ hook ++ " Open to a 5-min audit chat?"
      email := none
      platform := none
      jobUrl := none
      budget := none
      audit := audit }
  else if strTruthy l.website = false ∧ (4.5 : ℚ) ≤ ratingOr0 l ∧ 100 ≤ reviewsOr0 l then
    .ok
    { tag := "Aukat Strike Target"
      color := "bg-red-500/20 text-red-500 border border-red-500/30 font-black"
      pitch := "Hi " ++ l.business_name ++ ", I saw your legacy profile with " ++ toString (reviewsOr0 l) ++ " reviews. You\x27re a leader in the market, but your digital presence is missing. Can we talk about a high-end Next.js page?"
      email := none
      platform := some "Google Maps"
      jobUrl := some l.google_maps_url
      budget := none
      audit := none }
  else if strTruthy l.website = false ∧ (4.5 : ℚ) ≤ ratingOr0 l ∧ 50 ≤ reviewsOr0 l then
    .ok
    { tag := "Top Rated Target"
      color := "bg-purple-500/20 text-purple-400"
      pitch := "Hi " ++ l.business_name ++ ", I saw you\x27re one of the top-rated in the area (" ++ (match l.rating with | some r => toString r | none => "null") ++ " Stars), but I couldn\x27t find your website. Interested?"
      email := none
      platform := some "Google Maps"
      jobUrl := some l.google_maps_url
      budget := none
      audit := none }
  else if strTruthy l.website = false then
    .ok
    { tag := "No Website"
      color := "bg-emerald-500/20 text-emerald-400"
      pitch := "Hi " ++ l.business_name ++ ", noticed you don\x27t have a website listed on Maps. We build professional web pages. Can I send a demo?"
      email := none
      platform := some "Google Maps"
      jobUrl := some l.google_maps_url
      budget := none
      audit := none }
  else if l.source == some "VERIFIED_FUNDING" || auditIsStr audit "source" "VERIFIED_FUNDING" then
    match audit with
    | none => .error ()
    | some o =>
      let founderName := optStrOrD l.contact_name "Founder"
      let company := replaceFirst l.business_name "[FUNDED] "
      let amount := jsStrOrD o "funding_amount" "Seed"
      .ok
      { tag := "Verified: Funded"
        color := "bg-gradient-to-r from-cyan-500 to-blue-600 text-white shadow-lg shadow-cyan-500/20"
        pitch := "Hi " ++ founderName ++ ", congratulations on the " ++ amount ++ " funding for " ++ company ++ "! I am a developer specializing in rapid React/Next.js scaling. Given your new growth phase, I can help you ship features faster while you build your core team. Open to a brief chat?"
        email := l.email
        platform := some "Direct Email"
        jobUrl := some l.google_maps_url
        audit := some o
        budget := none }
  else
    .ok
    { tag := "Optimization"
      color := "bg-slate-700 text-slate-300"
      pitch := "Hi " ++ l.business_name ++ ", I help businesses optimize their digital presence. Open to a chat?"
      email := none
      platform := some (if strIncludes l.google_maps_url "maps" then "Google Maps" else "Source")
      jobUrl := some l.google_maps_url
      budget := none
      audit := none }

/-- `t.startsWith(p)`, modelled character-wise. -/
def strStartsWith (t p : String) : Bool :=
  p.data.isPrefixOf t.data

/-- The checks of getLeadSource after the notes-based ones
(page.tsx:360-366). -/
def getLeadSourceRest (l : Lead) : String :=
  if l.source == some "GULF_SNIPER" then "GULF"
  else if strTruthy l.source then l.source.getD ""
  else if strStartsWith l.business_name "[HN]" then "HACKER_NEWS"
  else if strStartsWith l.business_name "[Reddit]" then "REDDIT"
  else if strStartsWith l.business_name "[FUNDED]" then "VERIFIED_FUNDING"
  else if strIncludes l.google_maps_url "google.com/maps" then "GOOGLE_MAPS"
  else "UNKNOWN"

/-- getLeadSource (page.tsx:352-367): resolve the acquisition channel.
`notes.source` is returned as-is by the JS code when truthy; the model
renders it as a string. -/
def getLeadSource (l : Lead) : String :=
  match pageAudit l with
  | some notes =>
    if jTruthy notes "source" then jsToString ((jLookup notes "source").getD .jnull)
    else if jIsStr notes "market" "MIDDLE_EAST" then "GULF"
    else getLeadSourceRest l
  | none => getLeadSourceRest l

/- ### Spec-side definitions for refinement claims -/

/-- Modelled from the spec (section 4.1, normalize, first step):
"Strip all non-digit, non-leading-plus characters" — keep the digits,
and a plus sign only at the very front of the input. -/
def specCleanL : List Char → List Char
  | '+' :: rest => '+' :: rest.filter Char.isDigit
  | cs => cs.filter Char.isDigit

/-- Modelled from the spec (section 4.1): the ordered case analysis of
`normalize(phone)` as the spec words it. -/
def normalizeSpec (s : String) : String :=
  let clean := specCleanL s.data
  if startsWithL clean ['+'] then String.mk clean.tail
  else if startsWithL clean ['0', '5'] || startsWithL clean ['0', '4'] then
    String.mk ('9' :: '7' :: '1' :: clean.tail)
  else if clean.length == 10 && headSixToNine clean.head? then
    String.mk ('9' :: '1' :: clean)
  else if clean.length == 9 && (clean.head? == some '5') then
    String.mk ('9' :: '7' :: '1' :: clean)
  else String.mk clean

/-- A concrete lead with every optional column absent, used to build
the concrete instances the theorems below are evaluated on. -/
def baseLead : Lead :=
  { id := "lead-1"
    business_name := "Acme"
    status := "NEW"
    quality_score := none
    phone := none
    phone_type := none
    email := none
    instagram := none
    facebook := none
    address := none
    website := none
    rating := none
    review_count := none
    google_maps_url := "https://www.google.com/maps/place/acme"
    created_at := "2026-01-26"
    contacted := false
    is_premium := none
    source := none
    contact_name := none
    notes := none
    campaign_id := none }

/- ### Helper lemmas -/

/-- On plus-free character lists the code cleaning keeps exactly the digits. -/
lemma cleanPhoneL_no_plus (cs : List Char) (h : ∀ c ∈ cs, c ≠ '+') :
    cleanPhoneL cs = cs.filter Char.isDigit := by
  unfold cleanPhoneL
  refine List.filter_congr ?_
  intro c hc
  have hne : c ≠ '+' := h c hc
  simp [hne]

/-- When the input carries a plus sign only at its very front, the code
cleaning and the spec cleaning agree. -/
lemma cleanPhoneL_eq_specCleanL (cs : List Char)
    (h : ∀ c ∈ cs.tail, c ≠ '+') : cleanPhoneL cs = specCleanL cs := by
  cases cs with
  | nil => rfl
  | cons c rest =>
    have hrest : ∀ x ∈ rest, x ≠ '+' := by simpa using h
    by_cases hc : c = '+'
    · subst hc
      show cleanPhoneL ('+' :: rest) = '+' :: rest.filter Char.isDigit
      unfold cleanPhoneL
      simp only [List.filter]
      rw [show (('+' : Char).isDigit || '+' == '+') = true by decide]
      rw [← cleanPhoneL_no_plus rest hrest]
      rfl
    · have hall : ∀ x ∈ c :: rest, x ≠ '+' := by
        intro x hx
        rcases List.mem_cons.mp hx with h1 | h2
        · exact h1 ▸ hc
        · exact hrest x h2
      rw [cleanPhoneL_no_plus _ hall]
      unfold specCleanL
      split
      · rename_i heq
        injection heq with h1 h2
        exact absurd h1 hc
      · rfl

/-- Members of the dedup loop output were not already seen. -/
lemma dedupGo_mem_not_seen : ∀ (seen : List String) (ls : List Lead) (l : Lead),
    l ∈ dedupGo seen ls → normalizeName l.business_name ∉ seen := by
  intro seen ls
  induction ls generalizing seen with
  | nil => intro l h; simp [dedupGo] at h
  | cons x rest ih =>
    intro l h
    unfold dedupGo at h
    by_cases hx : seen.contains (normalizeName x.business_name) = true
    · rw [if_pos hx] at h
      exact ih seen l h
    · rw [if_neg hx] at h
      rcases List.mem_cons.mp h with rfl | hmem
      · intro hs
        exact hx (List.elem_eq_true_of_mem hs)
      · have hrec := ih (normalizeName x.business_name :: seen) l hmem
        intro hs
        exact hrec (List.mem_cons_of_mem _ hs)

/-- The dedup loop output has pairwise distinct normalized names. -/
lemma dedupGo_pairwise : ∀ (seen : List String) (ls : List Lead),
    List.Pairwise (fun a b : Lead =>
      normalizeName a.business_name ≠ normalizeName b.business_name) (dedupGo seen ls) := by
  intro seen ls
  induction ls generalizing seen with
  | nil => simp [dedupGo]
  | cons x rest ih =>
    unfold dedupGo
    by_cases hx : seen.contains (normalizeName x.business_name) = true
    · rw [if_pos hx]; exact ih seen
    · rw [if_neg hx]
      refine List.Pairwise.cons ?_ (ih _)
      intro b hb heq
      have hnot := dedupGo_mem_not_seen _ _ _ hb
      exact hnot (heq ▸ List.mem_cons_self _ _)

/-- For a name not yet seen, the first lead the dedup loop retains for
it is the first-encountered one of the input. -/
lemma dedupGo_find : ∀ (seen : List String) (ls : List Lead) (n : String), n ∉ seen →
    (dedupGo seen ls).find? (fun l => normalizeName l.business_name == n)
      = ls.find? (fun l => normalizeName l.business_name == n) := by
  intro seen ls
  induction ls generalizing seen with
  | nil => intro n _; rfl
  | cons x rest ih =>
    intro n hn
    unfold dedupGo
    by_cases hx : seen.contains (normalizeName x.business_name) = true
    · rw [if_pos hx, ih seen n hn]
      have hxn : (normalizeName x.business_name == n) = false := by
        have hmem : normalizeName x.business_name ∈ seen := by
          simpa using hx
        refine beq_eq_false_iff_ne.mpr ?_
        intro heq
        exact hn (heq ▸ hmem)
      simp [List.find?, hxn]
    · rw [if_neg hx]
      simp only [List.find?]
      cases hpx : (normalizeName x.business_name == n) with
      | true => rfl
      | false =>
        apply ih
        intro hmem
        rcases List.mem_cons.mp hmem with h1 | h2
        · rw [h1] at hpx
          simp at hpx
        · exact hn h2

/- ### Claim theorems -/

/-- C3: a missing notes blob or a JSON.parse failure makes parseNotes
return the empty object, and the classifier applied to a lead with
malformed notes returns the same presentation bundle as the identical
lead whose notes are the serialized empty object. -/
theorem C3_malformed_notes_safe : ∀ (l : Lead) (s : String),
    parseNotes { l with notes := some (.malformed s) } = []
    ∧ parseNotes { l with notes := none } = []
    ∧ getAnalysis { l with notes := some (.malformed s) }
        = getAnalysis { l with notes := some (.serialized []) } := by
  intro l s
  refine ⟨rfl, rfl, ?_⟩
  cases l
  rfl

/-- C4 counterexample: the code keeps interior plus signs when cleaning
(`/[^\d+]/g` keeps every plus), so on "0+501234567" it does not behave
as the ordered case analysis of the spec, which strips non-leading
pluses and would replace the leading 0 of the 05-prefixed digit string
with 971. -/
theorem C4_counterexample :
    formatPhoneForWhatsApp "0+501234567" = "0+501234567"
    ∧ normalizeSpec "0+501234567" = "971501234567"
    ∧ formatPhoneForWhatsApp "0+501234567" ≠ normalizeSpec "0+501234567" := by
  refine ⟨by decide, by decide, by decide⟩

/-- C4 (amended): on every input whose plus signs occur only at the very
first position, the phone normalizer agrees with the spec's ordered
case analysis, and the four concrete examples of the claim hold. -/
theorem C4_phone_normalizer :
    (∀ s : String, (s.data.tail.all (fun c => c != '+')) = true →
        formatPhoneForWhatsApp s = normalizeSpec s)
    ∧ formatPhoneForWhatsApp "0501234567" = "971501234567"
    ∧ formatPhoneForWhatsApp "+971501234567" = "971501234567"
    ∧ formatPhoneForWhatsApp "9876543210" = "919876543210"
    ∧ formatPhoneForWhatsApp "512345678" = "971512345678" := by
  refine ⟨?_, by decide, by decide, by decide, by decide⟩
  intro s h
  have h' : ∀ c ∈ s.data.tail, c ≠ '+' := by
    intro c hc
    have := List.all_eq_true.mp h c hc
    simpa using this
  have hcl : cleanPhoneL s.data = specCleanL s.data :=
    cleanPhoneL_eq_specCleanL s.data h'
  simp only [formatPhoneForWhatsApp, normalizeSpec, hcl]
  by_cases h1 : startsWithL (specCleanL s.data) ['+'] = true
  · simp [h1]
  · by_cases h2 : startsWithL (specCleanL s.data) ['0', '5'] = true
    · simp [h1, h2]
    · by_cases h3 : startsWithL (specCleanL s.data) ['0', '4'] = true
      · simp [h1, h2, h3]
      · simp [h1, h2, h3]

/-- C4 witness: the amended equivalence applied at "0501234567". -/
theorem C4_phone_normalizer_witness :
    ((("0501234567" : String).data.tail.all (fun c => c != '+')) = true)
    ∧ formatPhoneForWhatsApp "0501234567" = normalizeSpec "0501234567" :=
  ⟨by decide, C4_phone_normalizer.1 "0501234567" (by decide)⟩

/-- C5: the phone normalizer is total — every input yields one of the
five cleaned output shapes — and inputs matching none of the recognized
prefix cases pass through as the cleaned characters unchanged. -/
theorem C5_phone_total : ∀ s : String,
    (formatPhoneForWhatsApp s = String.mk (cleanPhoneL s.data).tail
      ∨ formatPhoneForWhatsApp s = String.mk ('9' :: '7' :: '1' :: (cleanPhoneL s.data).tail)
      ∨ formatPhoneForWhatsApp s = String.mk ('9' :: '1' :: cleanPhoneL s.data)
      ∨ formatPhoneForWhatsApp s = String.mk ('9' :: '7' :: '1' :: cleanPhoneL s.data)
      ∨ formatPhoneForWhatsApp s = String.mk (cleanPhoneL s.data))
    ∧ (startsWithL (cleanPhoneL s.data) ['+'] = false →
        startsWithL (cleanPhoneL s.data) ['0', '5'] = false →
        startsWithL (cleanPhoneL s.data) ['0', '4'] = false →
        ((cleanPhoneL s.data).length == 10 && headSixToNine (cleanPhoneL s.data).head?) = false →
        ((cleanPhoneL s.data).length == 9 && ((cleanPhoneL s.data).head? == some '5')) = false →
        formatPhoneForWhatsApp s = String.mk (cleanPhoneL s.data)) := by
  intro s
  constructor
  · by_cases h1 : startsWithL (cleanPhoneL s.data) ['+'] = true
    · exact Or.inl (by simp [formatPhoneForWhatsApp, h1])
    · by_cases h2 : startsWithL (cleanPhoneL s.data) ['0', '5'] = true
      · exact Or.inr (Or.inl (by simp [formatPhoneForWhatsApp, h1, h2]))
      · by_cases h3 : startsWithL (cleanPhoneL s.data) ['0', '4'] = true
        · exact Or.inr (Or.inl (by simp [formatPhoneForWhatsApp, h1, h2, h3]))
        · by_cases h4 : ((cleanPhoneL s.data).length == 10
              && headSixToNine (cleanPhoneL s.data).head?) = true
          · exact Or.inr (Or.inr (Or.inl (by simp [formatPhoneForWhatsApp, h1, h2, h3, h4])))
          · by_cases h5 : ((cleanPhoneL s.data).length == 9
                && ((cleanPhoneL s.data).head? == some '5')) = true
            · exact Or.inr (Or.inr (Or.inr (Or.inl
                (by simp [formatPhoneForWhatsApp, h1, h2, h3, h4, h5]))))
            · exact Or.inr (Or.inr (Or.inr (Or.inr
                (by simp [formatPhoneForWhatsApp, h1, h2, h3, h4, h5]))))
  · intro h1 h2 h3 h4 h5
    simp [formatPhoneForWhatsApp, h1, h2, h3, h4, h5]

/-- C5 witness: an input matching none of the prefix cases passes
through as its cleaned digits. -/
theorem C5_phone_total_witness :
    formatPhoneForWhatsApp "123-45" = String.mk (cleanPhoneL ("123-45" : String).data) :=
  (C5_phone_total "123-45").2 (by decide) (by decide) (by decide) (by decide) (by decide)

/-- C7: the deduplicated listing has pairwise distinct normalized names,
retains for each normalized name the first-encountered lead of the
input order, and on the spec's example keeps only "Acme Corp". -/
theorem C7_dedup_first_seen : ∀ (ls : List Lead),
    List.Pairwise (fun a b : Lead =>
      normalizeName a.business_name ≠ normalizeName b.business_name) (dedupLeads ls)
    ∧ (∀ n : String,
        (dedupLeads ls).find? (fun l => normalizeName l.business_name == n)
          = ls.find? (fun l => normalizeName l.business_name == n))
    ∧ dedupLeads [ { baseLead with business_name := "Acme Corp" }
                 , { baseLead with business_name := "  acme corp  " } ]
        = [ { baseLead with business_name := "Acme Corp" } ] := by
  intro ls
  refine ⟨dedupGo_pairwise [] ls, ?_, ?_⟩
  · intro n
    exact dedupGo_find [] ls n (by simp)
  · rfl

/-- The final (v2.1) classifier never produces the "Aukat Strike Target"
tag: its rule 6 is "No Website Gold". -/
lemma getAnalysisWith_tag_ne_aukat (l : Lead) (audit : JObj) :
    (getAnalysisWith l audit).tag ≠ "Aukat Strike Target" := by
  by_cases h1 : dcRule1 l = true
  · simp [getAnalysisWith, h1]
  · by_cases h2 : dcRule2 l = true
    · by_cases hg : jTruthy audit "is_gold_mine" = true <;>
        simp [getAnalysisWith, h1, h2, hg]
    · by_cases h3 : dcRule3 l audit = true
      · simp [getAnalysisWith, h1, h2, h3]
      · by_cases h4 : dcRule4 l audit = true
        · simp [getAnalysisWith, h1, h2, h3, h4]
        · by_cases h5 : dcRule5 l = true
          · simp [getAnalysisWith, h1, h2, h3, h4, h5]
          · by_cases h6 : dcRule6 l = true
            · simp [getAnalysisWith, h1, h2, h3, h4, h5, h6]
            · simp [getAnalysisWith, h1, h2, h3, h4, h5, h6]

/-- C1 counterexample: a lead satisfying every hypothesis of the claim
(no rule 1-5 condition, no website, rating 4.6, 150 reviews) is tagged
"No Website Gold" by the classifier of the final dashboard
(DashboardClient.tsx), not "Aukat Strike Target" — that version has no
Aukat rule at all. -/
theorem C1_counterexample :
    let L : Lead := { baseLead with
      rating := some 4.6, review_count := some 150, is_premium := some false }
    dcRule1 L = false ∧ dcRule2 L = false
    ∧ dcRule3 L (parseNotes L) = false ∧ dcRule4 L (parseNotes L) = false
    ∧ dcRule5 L = false
    ∧ strTruthy L.website = false ∧ (4.5 : ℚ) ≤ ratingOr0 L ∧ 100 ≤ reviewsOr0 L
    ∧ (getAnalysis L).tag = "No Website Gold"
    ∧ "No Website Gold" ≠ "Aukat Strike Target" := by
  exact ⟨rfl, rfl, rfl, rfl, rfl, rfl, by norm_num [ratingOr0, baseLead], by decide, rfl,
    by decide⟩

/-- C1 (amended): the "Aukat Strike Target" rule lives in the earlier
page.tsx classifier.  There, for every lead with no website, rating at
least 4.5 and at least 100 reviews, classification follows strict
first-match order over that file's earlier rules: the high-intent
project rule yields "Project: Hot", the mission/founder rule yields
"Bypass Mission" — each throwing a TypeError instead when it fires
through the source column alone while the audit is null — then premium
yields "Premium Target", and only when none of them fires is the tag
"Aukat Strike Target".  The final DashboardClient classifier never
produces the Aukat tag. -/
theorem C1_aukat_first_match : ∀ l : Lead,
    (getAnalysis l).tag ≠ "Aukat Strike Target"
    ∧ (strTruthy l.website = false → (4.5 : ℚ) ≤ ratingOr0 l → 100 ≤ reviewsOr0 l →
        Except.map PageAnalysis.tag (getAnalysisV20 l) =
          (if pageRule1 l (pageAudit l) then
            (match pageAudit l with
              | none => Except.error ()
              | some _ => Except.ok "Project: Hot")
           else if pageRule2 l (pageAudit l) then
            (match pageAudit l with
              | none => Except.error ()
              | some _ => Except.ok "Bypass Mission")
           else if l.is_premium.getD false then Except.ok "Premium Target"
           else Except.ok "Aukat Strike Target")) := by
  intro l
  constructor
  · exact getAnalysisWith_tag_ne_aukat l (parseNotes l)
  · intro hw hr hc
    by_cases h1 : pageRule1 l (pageAudit l) = true
    · cases hA : pageAudit l with
      | none =>
        rw [hA] at h1
        simp [getAnalysisV20, hA, h1, Except.map]
      | some o =>
        rw [hA] at h1
        simp [getAnalysisV20, hA, h1, Except.map]
    · by_cases h2 : pageRule2 l (pageAudit l) = true
      · cases hA : pageAudit l with
        | none =>
          rw [hA] at h1 h2
          simp [getAnalysisV20, hA, h1, h2, Except.map]
        | some o =>
          rw [hA] at h1 h2
          simp [getAnalysisV20, hA, h1, h2, Except.map]
      · by_cases h3 : l.is_premium.getD false = true
        · simp [getAnalysisV20, h1, h2, h3, Except.map]
        · have hcond : strTruthy l.website = false ∧ (4.5 : ℚ) ≤ ratingOr0 l
              ∧ 100 ≤ reviewsOr0 l := ⟨hw, hr, hc⟩
          simp only [getAnalysisV20, h1, h2, h3, if_false, Bool.false_eq_true,
            if_neg (fun h => h1 h), if_neg (fun h => h2 h), if_neg (fun h => h3 h)]
          rw [if_pos hcond]
          rfl

/-- C1 witness: a concrete no-website lead with rating 4.8 and 200
reviews, matching no earlier rule, is classified without error and
tagged "Aukat Strike Target" by the page.tsx classifier. -/
theorem C1_aukat_first_match_witness :
    Except.map PageAnalysis.tag
        (getAnalysisV20 { baseLead with rating := some 4.8, review_count := some 200 })
      = Except.ok "Aukat Strike Target" := by
  have h := (C1_aukat_first_match
      { baseLead with rating := some 4.8, review_count := some 200 }).2
    rfl (by norm_num [ratingOr0, baseLead]) (by decide)
  rw [h]
  rfl

/-- C2: the listing sort comparator realizes exactly the composite key
chain (isPinned desc, tag == "Aukat Strike Target" desc, review_count
desc, with an absent review_count treated as 0). -/
theorem C2_sort_composite_key : ∀ a b : Lead,
    leadCompare a b = specKeyCompare (leadKey a) (leadKey b) := by
  intro a b
  simp only [leadCompare, specKeyCompare, leadKey]
  by_cases hpa : (getAnalysis a).isPinned = true <;>
    by_cases hpb : (getAnalysis b).isPinned = true <;>
      by_cases hta : (getAnalysis a).tag = "Aukat Strike Target" <;>
        by_cases htb : (getAnalysis b).tag = "Aukat Strike Target" <;>
          simp [hpa, hpb, hta, htb, beq_iff_eq]

/-- C6: for a premium lead on which no earlier rule fires, the pitch is
the variant of the fixed 3-template list selected by the sum of the
character codes of the lead id modulo 3 (stable, not random). -/
theorem C6_premium_pitch_deterministic : ∀ l : Lead,
    dcRule1 l = false → dcRule2 l = false →
    dcRule3 l (parseNotes l) = false → dcRule4 l (parseNotes l) = false →
    dcRule5 l = true →
    (getAnalysis l).pitch
      = (premiumVariations l.business_name).getD (idCharSum l.id % 3) "" := by
  intro l h1 h2 h3 h4 h5
  have hlen : (premiumVariations l.business_name).length = 3 := rfl
  simp [getAnalysis, getAnalysisWith, h1, h2, h3, h4, h5, hlen]

/-- C6 witness: the deterministic premium pitch at a concrete lead. -/
theorem C6_premium_pitch_deterministic_witness :
    (getAnalysis { baseLead with is_premium := some true }).pitch
      = (premiumVariations "Acme").getD (idCharSum "lead-1" % 3) "" := by
  have h := C6_premium_pitch_deterministic { baseLead with is_premium := some true }
    rfl rfl rfl rfl rfl
  exact h

/-- With no primary source column, the tail of the resolver reduces to
the bracket-marker chain. -/
lemma getLeadSourceRest_markers (l : Lead) (h3 : l.source = none)
    (h4 : (strStartsWith l.business_name "[HN]" || strStartsWith l.business_name "[Reddit]"
        || strStartsWith l.business_name "[FUNDED]") = true) :
    getLeadSourceRest l =
      (if strStartsWith l.business_name "[HN]" then "HACKER_NEWS"
       else if strStartsWith l.business_name "[Reddit]" then "REDDIT"
       else "VERIFIED_FUNDING") := by
  unfold getLeadSourceRest
  rw [h3]
  by_cases hn : strStartsWith l.business_name "[HN]" = true
  · simp [hn, strTruthy]
  · by_cases hr : strStartsWith l.business_name "[Reddit]" = true
    · simp [hn, hr, strTruthy]
    · have hf : strStartsWith l.business_name "[FUNDED]" = true := by
        simpa [hn, hr] using h4
      simp [hn, hr, hf, strTruthy]

/-- C8 counterexample: a lead whose parsed notes carry no source field
but do carry market = "MIDDLE_EAST" satisfies every hypothesis of the
claim (no notes source, no primary source, "[HN]" name marker), yet the
resolver returns "GULF", not "HACKER_NEWS" — the market check precedes
the bracket markers. -/
theorem C8_counterexample :
    let L : Lead := { baseLead with
      business_name := "[HN] Acme"
      notes := some (.serialized [("market", .jstr "MIDDLE_EAST")]) }
    jLookup (parseNotes L) "source" = none
    ∧ L.source = none
    ∧ strStartsWith L.business_name "[HN]" = true
    ∧ getLeadSource L = "GULF"
    ∧ "GULF" ≠ "HACKER_NEWS" := by
  exact ⟨rfl, rfl, by decide, rfl, by decide⟩

/-- C8 (amended): for a lead whose parsed notes carry no source field
and no market = "MIDDLE_EAST" entry, whose primary source column is
absent, and whose name starts with one of the bracket markers, the
resolver returns the channel of that marker. -/
theorem C8_bracket_markers : ∀ l : Lead,
    (∀ o, pageAudit l = some o → jLookup o "source" = none) →
    (∀ o, pageAudit l = some o → jIsStr o "market" "MIDDLE_EAST" = false) →
    l.source = none →
    (strStartsWith l.business_name "[HN]" || strStartsWith l.business_name "[Reddit]"
      || strStartsWith l.business_name "[FUNDED]") = true →
    getLeadSource l =
      (if strStartsWith l.business_name "[HN]" then "HACKER_NEWS"
       else if strStartsWith l.business_name "[Reddit]" then "REDDIT"
       else "VERIFIED_FUNDING") := by
  intro l h1 h2 h3 h4
  unfold getLeadSource
  cases hA : pageAudit l with
  | none => exact getLeadSourceRest_markers l h3 h4
  | some o =>
    have hsrc : jTruthy o "source" = false := by
      unfold jTruthy
      rw [h1 o hA]
    show (if jTruthy o "source" = true then jsToString ((jLookup o "source").getD JVal.jnull)
      else if jIsStr o "market" "MIDDLE_EAST" = true then "GULF"
      else getLeadSourceRest l) = _
    rw [hsrc, h2 o hA]
    simp only [Bool.false_eq_true, if_false]
    exact getLeadSourceRest_markers l h3 h4

/-- C8 witness: a lead named "[HN] Acme" with no source and no notes
resolves to "HACKER_NEWS". -/
theorem C8_bracket_markers_witness :
    getLeadSource { baseLead with business_name := "[HN] Acme" } = "HACKER_NEWS" := by
  have h := C8_bracket_markers { baseLead with business_name := "[HN] Acme" }
    (fun o ho => by simp [pageAudit, baseLead] at ho)
    (fun o ho => by simp [pageAudit, baseLead] at ho)
    rfl (by decide)
  rw [h]
  rfl

/-- List.lookup over a cons cell, in ite form. -/
lemma lookup_cons_ite (a : String) (p : String × JVal) (es : JObj) :
    List.lookup a (p :: es) = if a = p.1 then some p.2 else List.lookup a es := by
  obtain ⟨u, b⟩ := p
  rw [List.lookup_cons]
  by_cases h : a = u
  · simp [h]
  · simp [h, beq_eq_false_iff_ne.mpr h]

/-- The element-wise replacement at key `k` leaves the head unchanged
when the head carries another key. -/
lemma setKey_cons_ne (p : String × JVal) (rest : JObj) (k : String) (v : JVal)
    (hp : (p.1 == k) = false) : setKey (p :: rest) k v = p :: setKey rest k v := by
  have hfp : (if (p.1 == k) = true then (k, v) else p) = p := by
    rw [if_neg]
    simp [hp]
  unfold setKey
  by_cases ha : rest.any (fun q => q.1 == k) = true
  · have hca : (p :: rest).any (fun q => q.1 == k) = true := by
      simp [List.any_cons, ha]
    rw [if_pos hca, if_pos ha, List.map_cons, hfp]
  · have hca : ¬ (p :: rest).any (fun q => q.1 == k) = true := by
      simp [List.any_cons, ha, hp]
    rw [if_neg hca, if_neg ha, List.cons_append]

/-- Replacing the value at key `k` does not disturb lookups at other keys. -/
lemma lookup_map_setKey (o : JObj) (k k' : String) (v : JVal) (hk : ¬ k' = k) :
    List.lookup k' (o.map (fun q => if q.1 == k then (k, v) else q)) = List.lookup k' o := by
  induction o with
  | nil => rfl
  | cons q rs ih =>
    by_cases hq : (q.1 == k) = true
    · have hq' : q.1 = k := by simpa using hq
      rw [List.map_cons, if_pos hq, lookup_cons_ite, lookup_cons_ite, ih, hq',
        if_neg hk, if_neg (by simpa [hq'] using hk)]
    · rw [List.map_cons, if_neg hq, lookup_cons_ite, lookup_cons_ite, ih]

/-- The JS spread update, seen through lookups: the updated key now
holds the new value, every other key is untouched. -/
lemma jLookup_setKey (o : JObj) (k k' : String) (v : JVal) :
    jLookup (setKey o k v) k' = if k' = k then some v else jLookup o k' := by
  induction o with
  | nil =>
    unfold setKey jLookup
    rw [if_neg (by simp)]
    rw [List.nil_append, lookup_cons_ite, List.lookup_nil]
  | cons p rest ih =>
    by_cases hp : (p.1 == k) = true
    · have hp' : p.1 = k := by simpa using hp
      have hform : setKey (p :: rest) k v
          = (k, v) :: rest.map (fun q => if q.1 == k then (k, v) else q) := by
        unfold setKey
        rw [if_pos]
        · rw [List.map_cons, if_pos hp]
        · simp [List.any_cons, hp]
      rw [hform]
      unfold jLookup
      by_cases hk : k' = k
      · rw [lookup_cons_ite, if_pos hk, if_pos hk]
      · rw [lookup_cons_ite, if_neg hk, if_neg hk, lookup_map_setKey rest k k' v hk,
          lookup_cons_ite, if_neg (by simpa [hp'] using hk)]
    · have hpf : (p.1 == k) = false := by simpa using hp
      rw [setKey_cons_ne p rest k v hpf]
      unfold jLookup at ih ⊢
      rw [lookup_cons_ite, lookup_cons_ite, ih]
      by_cases hqq : k' = p.1
      · have hne : ¬ k' = k := by
          intro he
          rw [he] at hqq
          rw [← hqq] at hpf
          simp at hpf
        rw [if_pos hqq, if_neg hne, if_pos hqq]
      · rw [if_neg hqq, if_neg hqq]

/-- togglePin, seen at the parsed-notes level: the notes of the updated
lead parse back to the spread-updated object. -/
lemma parseNotes_togglePin (l : Lead) :
    parseNotes (togglePin l)
      = setKey (parseNotes l) "is_pinned" (.jbool (!jTruthy (parseNotes l) "is_pinned")) := rfl

/-- Truthiness of is_pinned after the spread update. -/
lemma jTruthy_setKey_pin (o : JObj) (b : Bool) :
    jTruthy (setKey o "is_pinned" (.jbool b)) "is_pinned" = b := by
  unfold jTruthy
  rw [jLookup_setKey, if_pos rfl]
  rfl

/-- C10: a pin toggle rewrites only the is_pinned key of the notes
object — every other key keeps its value verbatim — and leaves every
lead column other than notes untouched. -/
theorem C10_togglePin_frame : ∀ (l : Lead) (k : String), k ≠ "is_pinned" →
    jLookup (parseNotes (togglePin l)) k = jLookup (parseNotes l) k
    ∧ jLookup (parseNotes (togglePin l)) "is_pinned"
        = some (.jbool (!jTruthy (parseNotes l) "is_pinned"))
    ∧ (togglePin l).id = l.id
    ∧ (togglePin l).business_name = l.business_name
    ∧ (togglePin l).status = l.status
    ∧ (togglePin l).quality_score = l.quality_score
    ∧ (togglePin l).phone = l.phone
    ∧ (togglePin l).phone_type = l.phone_type
    ∧ (togglePin l).email = l.email
    ∧ (togglePin l).instagram = l.instagram
    ∧ (togglePin l).facebook = l.facebook
    ∧ (togglePin l).address = l.address
    ∧ (togglePin l).website = l.website
    ∧ (togglePin l).rating = l.rating
    ∧ (togglePin l).review_count = l.review_count
    ∧ (togglePin l).google_maps_url = l.google_maps_url
    ∧ (togglePin l).created_at = l.created_at
    ∧ (togglePin l).contacted = l.contacted
    ∧ (togglePin l).is_premium = l.is_premium
    ∧ (togglePin l).source = l.source
    ∧ (togglePin l).contact_name = l.contact_name
    ∧ (togglePin l).campaign_id = l.campaign_id := by
  intro l k hk
  refine ⟨?_, ?_, rfl, rfl, rfl, rfl, rfl, rfl, rfl, rfl, rfl, rfl, rfl, rfl, rfl, rfl,
    rfl, rfl, rfl, rfl, rfl, rfl⟩
  · rw [parseNotes_togglePin, jLookup_setKey, if_neg hk]
  · rw [parseNotes_togglePin, jLookup_setKey, if_pos rfl]

/-- C10 witness: toggling the pin of a lead whose notes carry a keyword
annotation keeps that annotation verbatim. -/
theorem C10_togglePin_frame_witness :
    ("keyword" ≠ "is_pinned")
    ∧ jLookup (parseNotes (togglePin { baseLead with
          notes := some (.serialized [("keyword", .jstr "seo")]) })) "keyword"
        = jLookup (parseNotes { baseLead with
          notes := some (.serialized [("keyword", .jstr "seo")]) }) "keyword" :=
  ⟨by decide, (C10_togglePin_frame { baseLead with
      notes := some (.serialized [("keyword", .jstr "seo")]) } "keyword" (by decide)).1⟩

/-- The classifier's tag and derived pin flag only read the audit keys
intent, founder_linkedin, founder_email, is_gold_mine and (for the pin
flag) is_pinned: two audits agreeing there classify alike. -/
lemma getAnalysisWith_key_congr (l : Lead) (o₁ o₂ : JObj)
    (hint : jLookup o₁ "intent" = jLookup o₂ "intent")
    (hfl : jLookup o₁ "founder_linkedin" = jLookup o₂ "founder_linkedin")
    (hfe : jLookup o₁ "founder_email" = jLookup o₂ "founder_email")
    (hgm : jLookup o₁ "is_gold_mine" = jLookup o₂ "is_gold_mine")
    (hpin : jTruthy o₁ "is_pinned" = jTruthy o₂ "is_pinned") :
    (getAnalysisWith l o₁).tag = (getAnalysisWith l o₂).tag
    ∧ (getAnalysisWith l o₁).isPinned = (getAnalysisWith l o₂).isPinned := by
  have h3 : dcRule3 l o₁ = dcRule3 l o₂ := by
    unfold dcRule3 jIsStr
    rw [hint]
  have h4 : dcRule4 l o₁ = dcRule4 l o₂ := by
    unfold dcRule4 jTruthy
    rw [hfl, hfe]
  have hgm' : jTruthy o₁ "is_gold_mine" = jTruthy o₂ "is_gold_mine" := by
    unfold jTruthy
    rw [hgm]
  by_cases h1 : dcRule1 l = true
  · constructor <;> simp [getAnalysisWith, h1, hpin]
  · by_cases h2 : dcRule2 l = true
    · constructor
      · simp [getAnalysisWith, h1, h2, hgm']
      · simp [getAnalysisWith, h1, h2, hpin]
    · by_cases h3c : dcRule3 l o₁ = true
      · have h3c2 : dcRule3 l o₂ = true := h3 ▸ h3c
        constructor <;> simp [getAnalysisWith, h1, h2, h3c, h3c2, hpin]
      · have h3c2 : ¬ dcRule3 l o₂ = true := fun hh => h3c (h3.trans hh)
        by_cases h4c : dcRule4 l o₁ = true
        · have h4c2 : dcRule4 l o₂ = true := h4 ▸ h4c
          constructor <;> simp [getAnalysisWith, h1, h2, h3c, h3c2, h4c, h4c2, hpin]
        · have h4c2 : ¬ dcRule4 l o₂ = true := fun hh => h4c (h4.trans hh)
          by_cases h5 : dcRule5 l = true
          · constructor <;>
              simp [getAnalysisWith, h1, h2, h3c, h3c2, h4c, h4c2, h5, hpin]
          · by_cases h6 : dcRule6 l = true
            · constructor <;>
                simp [getAnalysisWith, h1, h2, h3c, h3c2, h4c, h4c2, h5, h6, hpin]
            · constructor <;>
                simp [getAnalysisWith, h1, h2, h3c, h3c2, h4c, h4c2, h5, h6, hpin]

/-- The classifier never reads the raw notes column, so it is blind to
the notes rewrite a pin toggle performs (for a fixed parsed audit). -/
lemma getAnalysisWith_togglePin (l : Lead) (o : JObj) :
    getAnalysisWith (togglePin l) o = getAnalysisWith l o := rfl

/-- C9: toggling the pin twice restores the derived pin flag, and the
double-toggled lead compares to every other lead exactly as the
original did, in both argument positions of the sort comparator. -/
theorem C9_pin_round_trip : ∀ (l m : Lead),
    (getAnalysis (togglePin (togglePin l))).isPinned = (getAnalysis l).isPinned
    ∧ leadCompare (togglePin (togglePin l)) m = leadCompare l m
    ∧ leadCompare m (togglePin (togglePin l)) = leadCompare m l := by
  intro l m
  have hother : ∀ k', k' ≠ "is_pinned" →
      jLookup (parseNotes (togglePin (togglePin l))) k' = jLookup (parseNotes l) k' := by
    intro k' hk
    rw [parseNotes_togglePin, jLookup_setKey, if_neg hk,
      parseNotes_togglePin, jLookup_setKey, if_neg hk]
  have hpin : jTruthy (parseNotes (togglePin (togglePin l))) "is_pinned"
      = jTruthy (parseNotes l) "is_pinned" := by
    rw [parseNotes_togglePin, jTruthy_setKey_pin, parseNotes_togglePin,
      jTruthy_setKey_pin, Bool.not_not]
  have hcongr := getAnalysisWith_key_congr l
    (parseNotes (togglePin (togglePin l))) (parseNotes l)
    (hother _ (by decide)) (hother _ (by decide)) (hother _ (by decide))
    (hother _ (by decide)) hpin
  have htag : (getAnalysis (togglePin (togglePin l))).tag = (getAnalysis l).tag := by
    show (getAnalysisWith (togglePin (togglePin l))
        (parseNotes (togglePin (togglePin l)))).tag
      = (getAnalysisWith l (parseNotes l)).tag
    rw [getAnalysisWith_togglePin, getAnalysisWith_togglePin]
    exact hcongr.1
  have hpin2 : (getAnalysis (togglePin (togglePin l))).isPinned
      = (getAnalysis l).isPinned := by
    show (getAnalysisWith (togglePin (togglePin l))
        (parseNotes (togglePin (togglePin l)))).isPinned
      = (getAnalysisWith l (parseNotes l)).isPinned
    rw [getAnalysisWith_togglePin, getAnalysisWith_togglePin]
    exact hcongr.2
  have hrc : reviewsOr0 (togglePin (togglePin l)) = reviewsOr0 l := rfl
  refine ⟨hpin2, ?_, ?_⟩
  · simp only [leadCompare, htag, hpin2, hrc]
  · simp only [leadCompare, htag, hpin2, hrc]
